import Mathlib

/-!
Verification of the conversational session engine of a streaming chatbot
client (`src/src/App.jsx`).

The component under study is the `App` React component. Its session state
consists of four `useState` cells: `messages` (the UI transcript), `input`
(the textarea contents), `isThinking` (the awaiting-response flag) and
`conversationHistory` (the backend-facing context history). The two event
handlers `handleSend` and `handleKeyDown` are the only mutators relevant to
the claims.

The embedding below models one call of `handleSend` as a pure state
transformer parameterised by the behaviour of the generation connector
during that call (`StreamResult`): the connector either throws before the
chunk loop starts (`initError`), streams a list of chunks and then completes
normally (`success`), or streams some chunks and then throws (`midError`).
JavaScript `String.prototype.trim` is modelled by `jsTrim`, and the
per-chunk `setMessages` functional update (which overwrites the content of
the last transcript entry with the accumulated response) by
`applyChunkUpdate`.
-/

/-- Transcript message roles, the `role` field of entries of `messages`
(`'user'` / `'assistant'` in the source). -/
inductive Role where
  | user
  | assistant
deriving DecidableEq, Repr

/-- A transcript message: `{ role, content }` as stored in `messages` and in
`conversationHistory`. -/
structure Message where
  role : Role
  content : String
deriving DecidableEq, Repr

/-- Backend-facing roles used when building the prompt contents
(`'user'` / `'model'` in the source, App.jsx lines 135-144). -/
inductive CtxRole where
  | user
  | model
deriving DecidableEq, Repr

/-- One entry of the prompt payload sent to the backend: the embedding keeps
the role and the text of `{ parts: [\x7b text \x7d], role }`. -/
structure ContextTurn where
  role : CtxRole
  content : String
deriving DecidableEq, Repr

/-- The session state: the four `useState` cells of `App`
(`messages`, `input`, `isThinking`, `conversationHistory`). -/
structure AppState where
  messages : List Message
  input : String
  isThinking : Bool
  conversationHistory : List Message
deriving DecidableEq, Repr

/-- The initial state: all four cells start empty/false
(App.jsx lines 19-22). -/
def initialState : AppState := ⟨[], "", false, []⟩

/-- The whitespace characters JavaScript `String.prototype.trim` strips,
restricted to the ASCII whitespace actually expressible in chat input:
space, tab, line feed, carriage return, vertical tab, form feed. -/
def isJsWhitespace (c : Char) : Bool :=
  c = ' ' || c = '\t' || c = '\n' || c = '\r' || c = '\u000B' || c = '\u000C'

/-- Model of JavaScript `String.prototype.trim` (`input.trim()`, App.jsx
line 123): remove leading and trailing whitespace. Defined on the character
list so that it evaluates by kernel reduction. -/
def jsTrim (s : String) : String :=
  ⟨((s.data.dropWhile isJsWhitespace).reverse.dropWhile isJsWhitespace).reverse⟩

/-- The role/content mapping applied to each `conversationHistory` entry when
building the prompt: `role === 'user' ? 'user' : 'model'`
(App.jsx lines 135-138). -/
def toContextTurn (m : Message) : ContextTurn :=
  ⟨if m.role = Role.user then CtxRole.user else CtxRole.model, m.content⟩

/-- The prompt snapshot built inside `handleSend` (App.jsx lines 134-144):
the mapped history (the source special-cases the empty history to `[]`,
which the embedding reproduces) followed by a trailing user entry holding
the trimmed input. -/
def contextMessages (history : List Message) (trimmedInput : String) :
    List ContextTurn :=
  (if history.length > 0 then history.map toContextTurn else [])
    ++ [⟨CtxRole.user, trimmedInput⟩]

/-- The fixed user-visible error message appended in the `catch` block
(App.jsx lines 188-191). -/
def errorText : String := "Sorry, there was an error processing your request."

/-- Behaviour of the generation connector during one `handleSend` call:
it throws before the assistant message is opened (`initError`, e.g.
`generateContentStream` rejects), or it streams `chunks` and completes
normally (`success`), or it streams `chunks` and then throws (`midError`). -/
inductive StreamResult where
  | initError
  | success (chunks : List String)
  | midError (chunks : List String)
deriving DecidableEq, Repr

/-- The per-chunk `setMessages` functional update (App.jsx lines 170-174):
copy the list and overwrite the content of its last entry with the
accumulated response. (In the source the list is always non-empty here; the
embedding returns the list unchanged when it is empty.) -/
def applyChunkUpdate (msgs : List Message) (accumulated : String) :
    List Message :=
  match msgs.getLast? with
  | none => msgs
  | some last => msgs.dropLast ++ [{ last with content := accumulated }]

/-- The `for await` chunk loop (App.jsx lines 166-175): each chunk is
appended to the accumulator and the last transcript entry is overwritten
with the new accumulated text. Returns the final transcript and the final
accumulated response. -/
def streamLoop (msgs : List Message) (accumulated : String)
    (chunks : List String) : List Message × String :=
  match chunks with
  | [] => (msgs, accumulated)
  | c :: rest => streamLoop (applyChunkUpdate msgs (accumulated ++ c))
      (accumulated ++ c) rest

/-- One complete `handleSend` call (App.jsx lines 122-193), with the
connector's behaviour supplied as `outcome`. Blank (trimmed-empty) input
returns immediately. Otherwise the trimmed user message is appended to the
transcript, the input is cleared and `isThinking` is set; then:
on `success` the empty assistant message is appended, the chunk loop runs,
and the user/assistant pair is committed to `conversationHistory`;
on `initError` the `catch` appends the fixed error message (no assistant
message was opened); on `midError` the partially streamed assistant message
is present and the `catch` appends the fixed error message after it.
`conversationHistory` is only written on success; `isThinking` is reset on
every exit path. -/
def handleSend (st : AppState) (outcome : StreamResult) : AppState :=
  let trimmedInput := jsTrim st.input
  if trimmedInput = "" then st
  else
    let userMessage : Message := ⟨Role.user, trimmedInput⟩
    let st1 : AppState :=
      { st with
          messages := st.messages ++ [userMessage]
          input := ""
          isThinking := true }
    match outcome with
    | StreamResult.initError =>
        { st1 with
            messages := st1.messages ++ [⟨Role.assistant, errorText⟩]
            isThinking := false }
    | StreamResult.success chunks =>
        let opened := st1.messages ++ [⟨Role.assistant, ""⟩]
        let result := streamLoop opened "" chunks
        { st1 with
            messages := result.1
            conversationHistory := st1.conversationHistory
              ++ [userMessage, ⟨Role.assistant, result.2⟩]
            isThinking := false }
    | StreamResult.midError chunks =>
        let opened := st1.messages ++ [⟨Role.assistant, ""⟩]
        let result := streamLoop opened "" chunks
        { st1 with
            messages := result.1 ++ [⟨Role.assistant, errorText⟩]
            isThinking := false }

/-- A keyboard event as far as `handleKeyDown` inspects it. -/
structure KeyEvent where
  key : String
  shiftKey : Bool
deriving DecidableEq, Repr

/-- `handleKeyDown` (App.jsx lines 196-206): Shift+Enter inserts a newline;
plain Enter on a viewport wider than 768px calls `handleSend`
unconditionally — there is no `isThinking` check on this path. -/
def handleKeyDown (st : AppState) (e : KeyEvent) (innerWidth : Nat)
    (outcome : StreamResult) : AppState :=
  if e.key = "Enter" then
    if e.shiftKey then { st with input := st.input ++ "\n" }
    else if innerWidth > 768 then handleSend st outcome
    else st
  else st

/-- The `disabled` attribute of the send button
(`isThinking || !input.trim()`, App.jsx line 266): the only guard in the
source against submitting while a turn is in flight, and it covers the
button path only. -/
def sendButtonDisabled (st : AppState) : Bool :=
  st.isThinking || jsTrim st.input == ""

/-- One user turn as driven from the UI: the user types `input` into the
textarea and submits; the connector behaves as `outcome`. -/
structure TurnEvent where
  input : String
  outcome : StreamResult
deriving DecidableEq, Repr

/-- Run one turn: set the textarea to the event's input and call
`handleSend`. -/
def runTurn (st : AppState) (e : TurnEvent) : AppState :=
  handleSend { st with input := e.input } e.outcome

/-- Run a session: a sequence of turns from a starting state. -/
def runSession (st : AppState) (evs : List TurnEvent) : AppState :=
  evs.foldl runTurn st

/-- A successful turn with given raw input and streamed chunks. -/
def successEvent (p : String × List String) : TurnEvent :=
  ⟨p.1, StreamResult.success p.2⟩

/-- Specification-side characterisation (spec §3, ContextHistory invariant):
the user/assistant pairs of exactly the fully completed (successful,
non-blank) turns of an event sequence, each carrying the full accumulated
assistant text. -/
def completedTurnPairs : List TurnEvent → List Message
  | [] => []
  | e :: rest =>
    (match e.outcome with
     | StreamResult.success cs =>
         if jsTrim e.input = "" then []
         else [⟨Role.user, jsTrim e.input⟩, ⟨Role.assistant, String.join cs⟩]
     | _ => []) ++ completedTurnPairs rest

/-! ## Basic lemmas about the chunk loop and `handleSend` -/

/-- Overwriting the last entry of a non-empty transcript keeps the earlier
entries and the last entry's role. -/
theorem applyChunkUpdate_concat (msgs : List Message) (m : Message) (s : String) :
    applyChunkUpdate (msgs ++ [m]) s = msgs ++ [⟨m.role, s⟩] := by
  simp [applyChunkUpdate, List.getLast?_concat, List.dropLast_concat]

/-- The chunk loop leaves every entry but the last untouched and ends with
the last entry holding the left fold of the chunks over the starting
accumulator, which is also the returned accumulated response. -/
theorem streamLoop_concat (msgs : List Message) (r : Role) (acc : String)
    (chunks : List String) :
    streamLoop (msgs ++ [⟨r, acc⟩]) acc chunks
      = (msgs ++ [⟨r, chunks.foldl (· ++ ·) acc⟩], chunks.foldl (· ++ ·) acc) := by
  induction chunks generalizing acc with
  | nil => simp [streamLoop]
  | cons c rest ih =>
      simp only [streamLoop, applyChunkUpdate_concat, List.foldl_cons]
      exact ih (acc ++ c)

/-- Folding string append from the empty string is the in-order
concatenation of the chunks. -/
theorem foldl_empty_join (chunks : List String) :
    chunks.foldl (· ++ ·) "" = String.join chunks := rfl

/-- Blank (trimmed-empty) input makes `handleSend` a no-op regardless of the
connector's behaviour. -/
theorem handleSend_blank (st : AppState) (outcome : StreamResult)
    (h : jsTrim st.input = "") : handleSend st outcome = st := by
  simp [handleSend, h]

/-- Shape of a successful `handleSend` call: the transcript gains the
trimmed user message and a closed assistant message holding the full
concatenation of the chunks, the same pair is committed to the context
history, the input is cleared and `isThinking` ends false. -/
theorem handleSend_success_eq (st : AppState) (chunks : List String)
    (h : ¬ jsTrim st.input = "") :
    handleSend st (StreamResult.success chunks) =
      { messages := st.messages
          ++ [⟨Role.user, jsTrim st.input⟩, ⟨Role.assistant, String.join chunks⟩]
        input := ""
        isThinking := false
        conversationHistory := st.conversationHistory
          ++ [⟨Role.user, jsTrim st.input⟩, ⟨Role.assistant, String.join chunks⟩] } := by
  unfold handleSend
  rw [if_neg h]
  simp only [streamLoop_concat, foldl_empty_join]
  simp

/-- Shape of a `handleSend` call whose connector fails mid-stream: the
transcript gains the trimmed user message, the partially streamed assistant
message, and an appended assistant error message; the context history is
untouched and `isThinking` ends false. -/
theorem handleSend_midError_eq (st : AppState) (chunks : List String)
    (h : ¬ jsTrim st.input = "") :
    handleSend st (StreamResult.midError chunks) =
      { messages := st.messages
          ++ [⟨Role.user, jsTrim st.input⟩, ⟨Role.assistant, String.join chunks⟩,
              ⟨Role.assistant, errorText⟩]
        input := ""
        isThinking := false
        conversationHistory := st.conversationHistory } := by
  unfold handleSend
  rw [if_neg h]
  simp only [streamLoop_concat, foldl_empty_join]
  simp

/-- Shape of a `handleSend` call whose connector fails before streaming: the
transcript gains the trimmed user message and the assistant error message;
the context history is untouched and `isThinking` ends false. -/
theorem handleSend_initError_eq (st : AppState) (h : ¬ jsTrim st.input = "") :
    handleSend st StreamResult.initError =
      { messages := st.messages
          ++ [⟨Role.user, jsTrim st.input⟩, ⟨Role.assistant, errorText⟩]
        input := ""
        isThinking := false
        conversationHistory := st.conversationHistory } := by
  unfold handleSend
  rw [if_neg h]
  simp

/-- The prompt snapshot is the mapped history followed by the trailing user
entry; the source's special case for the empty history makes no difference. -/
theorem contextMessages_eq (history : List Message) (t : String) :
    contextMessages history t
      = history.map toContextTurn ++ [⟨CtxRole.user, t⟩] := by
  cases history with
  | nil => simp [contextMessages]
  | cons m rest => simp [contextMessages]

/-- Effect of one turn on the context history: a non-blank successful turn
appends its user/assistant pair, every other turn leaves it unchanged. -/
theorem runTurn_history (st : AppState) (e : TurnEvent) :
    (runTurn st e).conversationHistory
      = st.conversationHistory
        ++ (match e.outcome with
            | StreamResult.success cs =>
                if jsTrim e.input = "" then []
                else [⟨Role.user, jsTrim e.input⟩, ⟨Role.assistant, String.join cs⟩]
            | _ => []) := by
  cases e with
  | mk inp outcome =>
    by_cases hb : jsTrim inp = ""
    · rw [show runTurn st ⟨inp, outcome⟩
          = handleSend { st with input := inp } outcome from rfl]
      rw [handleSend_blank _ _ (by simpa using hb)]
      cases outcome <;> simp [hb]
    · cases outcome with
      | initError =>
          rw [show runTurn st ⟨inp, StreamResult.initError⟩
              = handleSend { st with input := inp } StreamResult.initError from rfl]
          rw [handleSend_initError_eq _ (by simpa using hb)]
          simp
      | success cs =>
          rw [show runTurn st ⟨inp, StreamResult.success cs⟩
              = handleSend { st with input := inp } (StreamResult.success cs) from rfl]
          rw [handleSend_success_eq _ cs (by simpa using hb)]
          simp [hb]
      | midError cs =>
          rw [show runTurn st ⟨inp, StreamResult.midError cs⟩
              = handleSend { st with input := inp } (StreamResult.midError cs) from rfl]
          rw [handleSend_midError_eq _ cs (by simpa using hb)]
          simp

/-- Over any event sequence the context history grows by exactly the pairs
of the fully completed turns. -/
theorem runSession_history (st : AppState) (evs : List TurnEvent) :
    (runSession st evs).conversationHistory
      = st.conversationHistory ++ completedTurnPairs evs := by
  induction evs generalizing st with
  | nil => simp [runSession, completedTurnPairs]
  | cons e rest ih =>
      rw [show runSession st (e :: rest) = runSession (runTurn st e) rest from rfl]
      rw [ih, runTurn_history]
      cases e with
      | mk inp outcome =>
        cases outcome <;> simp [completedTurnPairs]

/-- For all-successful, non-blank turns the completed pairs are exactly one
user/assistant pair per turn, in turn order. -/
theorem completedTurnPairs_success (turns : List (String × List String))
    (h : ∀ p ∈ turns, ¬ jsTrim p.1 = "") :
    completedTurnPairs (turns.map successEvent)
      = (turns.map fun p =>
          [(⟨Role.user, jsTrim p.1⟩ : Message),
           ⟨Role.assistant, String.join p.2⟩]).flatten := by
  induction turns with
  | nil => simp [completedTurnPairs]
  | cons p rest ih =>
      have hp : ¬ jsTrim p.1 = "" := h p (by simp)
      simp [completedTurnPairs, successEvent, hp,
        ih (fun q hq => h q (by simp [hq]))]

/-- Mapping the prompt role translation over per-turn pairs sends each user
entry to a backend USER entry and each assistant entry to a MODEL entry. -/
theorem map_toContextTurn_pairs (turns : List (String × List String)) :
    ((turns.map fun p =>
        [(⟨Role.user, jsTrim p.1⟩ : Message),
         ⟨Role.assistant, String.join p.2⟩]).flatten).map toContextTurn
      = (turns.map fun p =>
          [(⟨CtxRole.user, jsTrim p.1⟩ : ContextTurn),
           ⟨CtxRole.model, String.join p.2⟩]).flatten := by
  induction turns with
  | nil => simp
  | cons p rest ih => simp [toContextTurn, ih]

/-- A flattened list of per-turn pairs has one USER and one MODEL entry per
turn. -/
theorem length_pairs_flatten (turns : List (String × List String)) :
    ((turns.map fun p =>
        [(⟨CtxRole.user, jsTrim p.1⟩ : ContextTurn),
         ⟨CtxRole.model, String.join p.2⟩]).flatten).length
      = 2 * turns.length := by
  induction turns with
  | nil => simp
  | cons p rest ih =>
      simp [ih]
      omega

/-! ## Claim theorems -/

/-- Claim C1 (code bug evaluated on the failing input): in a state with a
turn in flight (`isThinking = true`) the send button is disabled, but
pressing plain Enter on a desktop-width viewport reaches `handleSend`, which
checks only for blank input: the transcript is mutated (a new USER message
is appended and a second turn runs to completion), contradicting the claim
that every submission while not IDLE is rejected without mutation. -/
theorem enterKey_submits_while_busy :
    (⟨[⟨Role.user, "hi"⟩, ⟨Role.assistant, ""⟩], "again", true, []⟩ : AppState).isThinking = true
    ∧ sendButtonDisabled ⟨[⟨Role.user, "hi"⟩, ⟨Role.assistant, ""⟩], "again", true, []⟩ = true
    ∧ (handleKeyDown ⟨[⟨Role.user, "hi"⟩, ⟨Role.assistant, ""⟩], "again", true, []⟩
          ⟨"Enter", false⟩ 1024 (StreamResult.success ["ok"])).messages
        = [⟨Role.user, "hi"⟩, ⟨Role.assistant, ""⟩, ⟨Role.user, "again"⟩,
           ⟨Role.assistant, "ok"⟩] := by decide

/-- Claim C2: a successful turn with user text `U` and accumulated assistant
text `A` extends the context history by exactly `{USER, U}` then
`{MODEL, A}` (stated through the backend role mapping), and a turn that
fails at any point — mid-stream or before streaming — leaves the context
history exactly equal to its pre-turn value. -/
theorem commit_pair_on_success_unchanged_on_failure (st : AppState)
    (chunks badChunks : List String) (h : ¬ jsTrim st.input = "") :
    ((handleSend st (StreamResult.success chunks)).conversationHistory.map toContextTurn
        = st.conversationHistory.map toContextTurn
          ++ [⟨CtxRole.user, jsTrim st.input⟩, ⟨CtxRole.model, String.join chunks⟩])
    ∧ (handleSend st (StreamResult.midError badChunks)).conversationHistory
        = st.conversationHistory
    ∧ (handleSend st StreamResult.initError).conversationHistory
        = st.conversationHistory := by
  refine ⟨?_, ?_, ?_⟩
  · rw [handleSend_success_eq st chunks h]
    simp [toContextTurn]
  · rw [handleSend_midError_eq st badChunks h]
  · rw [handleSend_initError_eq st h]

/-- Witness for claim C2 at a concrete turn. -/
theorem commit_pair_witness :
    ¬ jsTrim " hello " = ""
    ∧ (handleSend ⟨[], " hello ", false, []⟩
          (StreamResult.success ["Hi", " there", "!"])).conversationHistory.map toContextTurn
        = [⟨CtxRole.user, "hello"⟩, ⟨CtxRole.model, "Hi there!"⟩]
    ∧ (handleSend ⟨[], " hello ", false, []⟩
          (StreamResult.midError ["par"])).conversationHistory = []
    ∧ (handleSend ⟨[], " hello ", false, []⟩
          StreamResult.initError).conversationHistory = [] := by
  have h := commit_pair_on_success_unchanged_on_failure ⟨[], " hello ", false, []⟩
      ["Hi", " there", "!"] ["par"] (by decide)
  exact ⟨by decide, h.1.trans (by decide), h.2.1, h.2.2⟩

/-- Counterexample to claim C3: submitting `"fail please"` with the
connector failing after streaming `"par"` leaves the partial assistant
message `"par"` in the transcript as its own entry and appends the error
message as a further assistant entry — the partial content is not
overwritten in place. -/
theorem partial_not_overwritten_cex :
    (handleSend ⟨[], "fail please", false, []⟩
        (StreamResult.midError ["par"])).messages
      = [⟨Role.user, "fail please"⟩, ⟨Role.assistant, "par"⟩,
         ⟨Role.assistant, errorText⟩]
    ∧ (handleSend ⟨[], "fail please", false, []⟩
        (StreamResult.midError ["par"])).messages
      ≠ [⟨Role.user, "fail please"⟩, ⟨Role.assistant, errorText⟩] := by decide

/-- Claim C3 as amended: when a turn fails after chunks streamed, the
partial assistant message stays in the transcript with its partial content
and the fixed error message is appended as a new assistant entry after it,
so the transcript's last message content is the error text; the context
history is unchanged and the turn is closed (`isThinking = false`). -/
theorem error_appended_after_partial (st : AppState) (chunks : List String)
    (h : ¬ jsTrim st.input = "") :
    (handleSend st (StreamResult.midError chunks)).messages
      = st.messages ++ [⟨Role.user, jsTrim st.input⟩,
          ⟨Role.assistant, String.join chunks⟩, ⟨Role.assistant, errorText⟩]
    ∧ (handleSend st (StreamResult.midError chunks)).messages.getLast?
      = some ⟨Role.assistant, errorText⟩
    ∧ (handleSend st (StreamResult.midError chunks)).conversationHistory
      = st.conversationHistory
    ∧ (handleSend st (StreamResult.midError chunks)).isThinking = false := by
  rw [handleSend_midError_eq st chunks h]
  refine ⟨rfl, ?_, rfl, rfl⟩
  rw [show [(⟨Role.user, jsTrim st.input⟩ : Message),
      ⟨Role.assistant, String.join chunks⟩, ⟨Role.assistant, errorText⟩]
      = [⟨Role.user, jsTrim st.input⟩, ⟨Role.assistant, String.join chunks⟩]
        ++ [⟨Role.assistant, errorText⟩] from rfl]
  rw [← List.append_assoc, List.getLast?_concat]

/-- Witness for the amended claim C3 at a concrete failing turn. -/
theorem error_appended_witness :
    ¬ jsTrim "fail now" = ""
    ∧ (handleSend ⟨[], "fail now", false, []⟩
          (StreamResult.midError ["pa", "r"])).messages
        = [⟨Role.user, "fail now"⟩, ⟨Role.assistant, "par"⟩,
           ⟨Role.assistant, errorText⟩]
    ∧ (handleSend ⟨[], "fail now", false, []⟩
          (StreamResult.midError ["pa", "r"])).messages.getLast?
        = some ⟨Role.assistant, errorText⟩
    ∧ (handleSend ⟨[], "fail now", false, []⟩
          (StreamResult.midError ["pa", "r"])).conversationHistory = []
    ∧ (handleSend ⟨[], "fail now", false, []⟩
          (StreamResult.midError ["pa", "r"])).isThinking = false := by
  have h := error_appended_after_partial ⟨[], "fail now", false, []⟩ ["pa", "r"]
      (by decide)
  exact ⟨by decide, h.1.trans (by decide), h.2.1, h.2.2.1, h.2.2.2⟩

/-- Counterexample to claim C4: a non-blank input submitted while IDLE whose
turn fails mid-stream leaves the transcript with three new entries — one
USER message and two ASSISTANT messages — not exactly one of each. -/
theorem transcript_gain_cex :
    (handleSend ⟨[], "hello", false, []⟩
        (StreamResult.midError ["pa", "rt"])).messages
      = [⟨Role.user, "hello"⟩, ⟨Role.assistant, "part"⟩,
         ⟨Role.assistant, errorText⟩]
    ∧ ((handleSend ⟨[], "hello", false, []⟩
        (StreamResult.midError ["pa", "rt"])).messages.length ≠ 2) := by decide

/-- Claim C4 as amended: for every non-blank input submitted while IDLE, on
success or on failure before the assistant message is opened the transcript
gains exactly one new USER message followed by one new ASSISTANT message;
on failure after the assistant message is opened it gains one USER message
followed by two ASSISTANT messages (the partial content, then the fixed
error text). -/
theorem transcript_gains_fixed_shape (st : AppState)
    (h : ¬ jsTrim st.input = "") :
    (∀ chunks, (handleSend st (StreamResult.success chunks)).messages
        = st.messages ++ [⟨Role.user, jsTrim st.input⟩,
            ⟨Role.assistant, String.join chunks⟩])
    ∧ ((handleSend st StreamResult.initError).messages
        = st.messages ++ [⟨Role.user, jsTrim st.input⟩,
            ⟨Role.assistant, errorText⟩])
    ∧ (∀ chunks, (handleSend st (StreamResult.midError chunks)).messages
        = st.messages ++ [⟨Role.user, jsTrim st.input⟩,
            ⟨Role.assistant, String.join chunks⟩, ⟨Role.assistant, errorText⟩]) := by
  refine ⟨fun chunks => ?_, ?_, fun chunks => ?_⟩
  · rw [handleSend_success_eq st chunks h]
  · rw [handleSend_initError_eq st h]
  · rw [handleSend_midError_eq st chunks h]

/-- Witness for the amended claim C4 at concrete turns. -/
theorem transcript_gains_witness :
    ¬ jsTrim "hello" = ""
    ∧ (handleSend ⟨[], "hello", false, []⟩
          (StreamResult.success ["Hi", " there", "!"])).messages
        = [⟨Role.user, "hello"⟩, ⟨Role.assistant, "Hi there!"⟩]
    ∧ (handleSend ⟨[], "hello", false, []⟩ StreamResult.initError).messages
        = [⟨Role.user, "hello"⟩, ⟨Role.assistant, errorText⟩]
    ∧ (handleSend ⟨[], "hello", false, []⟩
          (StreamResult.midError ["Hi"])).messages
        = [⟨Role.user, "hello"⟩, ⟨Role.assistant, "Hi"⟩,
           ⟨Role.assistant, errorText⟩] := by
  have h := transcript_gains_fixed_shape ⟨[], "hello", false, []⟩ (by decide)
  exact ⟨by decide, (h.1 ["Hi", " there", "!"]).trans (by decide),
    h.2.1.trans (by decide), (h.2.2 ["Hi"]).trans (by decide)⟩

/-- Claim C5: after a successful turn the final assistant message content is
`String.join chunks`, the concatenation of the chunks in exactly the
connector's emission order (equal, chunk by chunk, to the left fold that
appends each arriving chunk to the accumulated text). -/
theorem assistant_content_is_ordered_concat (st : AppState)
    (chunks : List String) (h : ¬ jsTrim st.input = "") :
    (handleSend st (StreamResult.success chunks)).messages.getLast?
      = some ⟨Role.assistant, String.join chunks⟩
    ∧ String.join chunks = chunks.foldl (fun acc c => acc ++ c) "" := by
  rw [handleSend_success_eq st chunks h]
  refine ⟨?_, rfl⟩
  rw [show [(⟨Role.user, jsTrim st.input⟩ : Message),
      ⟨Role.assistant, String.join chunks⟩]
      = [⟨Role.user, jsTrim st.input⟩] ++ [⟨Role.assistant, String.join chunks⟩]
      from rfl]
  rw [← List.append_assoc, List.getLast?_concat]

/-- Witness for claim C5 at a concrete streamed turn. -/
theorem assistant_content_witness :
    ¬ jsTrim "hello there" = ""
    ∧ (handleSend ⟨[], "hello there", false, []⟩
          (StreamResult.success ["Hi", " there", "!"])).messages.getLast?
        = some ⟨Role.assistant, "Hi there!"⟩
    ∧ String.join ["Hi", " there", "!"]
        = ["Hi", " there", "!"].foldl (fun acc c => acc ++ c) "" := by
  have h := assistant_content_is_ordered_concat ⟨[], "hello there", false, []⟩
      ["Hi", " there", "!"] (by decide)
  exact ⟨by decide, h.1.trans (by decide), h.2⟩

/-- Claim C6: after N successful non-blank turns, the prompt snapshot for
the next user text is one USER entry then one MODEL entry per prior turn,
in turn order, followed by a trailing USER entry holding the next text —
`2N + 1` entries in total. -/
theorem prompt_snapshot_round_trip (turns : List (String × List String))
    (nextText : String) (h : ∀ p ∈ turns, ¬ jsTrim p.1 = "") :
    contextMessages
        (runSession initialState (turns.map successEvent)).conversationHistory
        nextText
      = (turns.map fun p =>
          [(⟨CtxRole.user, jsTrim p.1⟩ : ContextTurn),
           ⟨CtxRole.model, String.join p.2⟩]).flatten
        ++ [⟨CtxRole.user, nextText⟩]
    ∧ (contextMessages
        (runSession initialState (turns.map successEvent)).conversationHistory
        nextText).length
      = 2 * turns.length + 1 := by
  have h1 : contextMessages
      (runSession initialState (turns.map successEvent)).conversationHistory
      nextText
      = (turns.map fun p =>
          [(⟨CtxRole.user, jsTrim p.1⟩ : ContextTurn),
           ⟨CtxRole.model, String.join p.2⟩]).flatten
        ++ [⟨CtxRole.user, nextText⟩] := by
    rw [contextMessages_eq, runSession_history,
      completedTurnPairs_success turns h]
    simp only [initialState, List.nil_append, map_toContextTurn_pairs]
  refine ⟨h1, ?_⟩
  rw [h1, List.length_append, length_pairs_flatten]
  rfl

/-- Witness for claim C6 after two concrete successful turns (N = 2, five
prompt entries). -/
theorem prompt_snapshot_witness :
    (∀ p ∈ [(" hi ", ["Hel", "lo"]), ("more", ["!"])], ¬ jsTrim p.1 = "")
    ∧ contextMessages
        (runSession initialState
          ([(" hi ", ["Hel", "lo"]), ("more", ["!"])].map successEvent)).conversationHistory
        "next"
      = [⟨CtxRole.user, "hi"⟩, ⟨CtxRole.model, "Hello"⟩,
         ⟨CtxRole.user, "more"⟩, ⟨CtxRole.model, "!"⟩, ⟨CtxRole.user, "next"⟩]
    ∧ (contextMessages
        (runSession initialState
          ([(" hi ", ["Hel", "lo"]), ("more", ["!"])].map successEvent)).conversationHistory
        "next").length = 5 := by
  have h := prompt_snapshot_round_trip [(" hi ", ["Hel", "lo"]), ("more", ["!"])]
      "next" (by decide)
  exact ⟨by decide, h.1.trans (by decide), h.2.trans (by decide)⟩

/-- Claim C7: across any session — any sequence of turns with any mix of
successes, mid-stream failures, pre-stream failures and blank submissions —
the context history holds exactly the user/assistant pairs of the fully
completed turns (never partial streaming text), so the next prompt is built
from the last fully successful exchange plus the next user text. -/
theorem history_only_completed_turns (evs : List TurnEvent) (nextText : String) :
    (runSession initialState evs).conversationHistory = completedTurnPairs evs
    ∧ contextMessages (runSession initialState evs).conversationHistory nextText
      = (completedTurnPairs evs).map toContextTurn ++ [⟨CtxRole.user, nextText⟩] := by
  have h := runSession_history initialState evs
  refine ⟨by simpa using h, ?_⟩
  rw [contextMessages_eq, h]
  simp [initialState]

/-- Claim C8: after a turn failure — mid-stream or before streaming — the
session is back to IDLE (`isThinking = false`), and a subsequent non-blank
submission proceeds normally, appending its user message and its completed
assistant response to the transcript. -/
theorem returns_idle_after_failure (st : AppState) (chunks : List String)
    (nextText : String) (cs : List String)
    (h : ¬ jsTrim st.input = "") (hn : ¬ jsTrim nextText = "") :
    (handleSend st (StreamResult.midError chunks)).isThinking = false
    ∧ (handleSend st StreamResult.initError).isThinking = false
    ∧ (handleSend
          { handleSend st (StreamResult.midError chunks) with input := nextText }
          (StreamResult.success cs)).messages
      = (handleSend st (StreamResult.midError chunks)).messages
        ++ [⟨Role.user, jsTrim nextText⟩, ⟨Role.assistant, String.join cs⟩] := by
  refine ⟨?_, ?_, ?_⟩
  · rw [handleSend_midError_eq st chunks h]
  · rw [handleSend_initError_eq st h]
  · rw [handleSend_success_eq
        { handleSend st (StreamResult.midError chunks) with input := nextText }
        cs (by simpa using hn)]

/-- Witness for claim C8: a concrete failed turn followed by a successful
one. -/
theorem returns_idle_witness :
    ¬ jsTrim "first" = ""
    ∧ ¬ jsTrim "second" = ""
    ∧ (handleSend ⟨[], "first", false, []⟩
          (StreamResult.midError ["pa"])).isThinking = false
    ∧ (handleSend ⟨[], "first", false, []⟩ StreamResult.initError).isThinking = false
    ∧ (handleSend
          { handleSend ⟨[], "first", false, []⟩ (StreamResult.midError ["pa"]) with
              input := "second" }
          (StreamResult.success ["ok"])).messages
      = [⟨Role.user, "first"⟩, ⟨Role.assistant, "pa"⟩, ⟨Role.assistant, errorText⟩,
         ⟨Role.user, "second"⟩, ⟨Role.assistant, "ok"⟩] := by
  have h := returns_idle_after_failure ⟨[], "first", false, []⟩ ["pa"] "second"
      ["ok"] (by decide) (by decide)
  exact ⟨by decide, by decide, h.1, h.2.1, h.2.2.trans (by decide)⟩

/-- Claim C9: applying one chunk during streaming — the trailing transcript
entry being the open assistant message with the accumulated text so far —
leaves every earlier transcript entry unchanged and only replaces the
trailing entry's content with the extended accumulation, its role staying
ASSISTANT. -/
theorem chunk_update_frame (pre : List Message) (acc c : String) :
    applyChunkUpdate (pre ++ [⟨Role.assistant, acc⟩]) (acc ++ c)
      = pre ++ [⟨Role.assistant, acc ++ c⟩] :=
  applyChunkUpdate_concat pre ⟨Role.assistant, acc⟩ (acc ++ c)

/-- Claim C10: for a submitted input whose trimmed form is non-empty, the
USER message appended to the transcript and the user entry committed to the
context history on success both carry the trimmed input, not the raw
input. -/
theorem user_message_is_trimmed_input (st : AppState) (chunks : List String)
    (h : ¬ jsTrim st.input = "") :
    (handleSend st (StreamResult.success chunks)).messages[st.messages.length]?
      = some ⟨Role.user, jsTrim st.input⟩
    ∧ (handleSend st
          (StreamResult.success chunks)).conversationHistory[st.conversationHistory.length]?
      = some ⟨Role.user, jsTrim st.input⟩ := by
  rw [handleSend_success_eq st chunks h]
  refine ⟨?_, ?_⟩
  · rw [List.getElem?_append_right (le_refl st.messages.length)]
    simp
  · rw [List.getElem?_append_right (le_refl st.conversationHistory.length)]
    simp

/-- Witness for claim C10: the raw input has surrounding whitespace, and the
recorded user message carries the trimmed text. -/
theorem user_message_trimmed_witness :
    ¬ jsTrim "  hi there  " = ""
    ∧ (handleSend ⟨[], "  hi there  ", false, []⟩
          (StreamResult.success ["yo"])).messages[0]?
        = some ⟨Role.user, "hi there"⟩
    ∧ (handleSend ⟨[], "  hi there  ", false, []⟩
          (StreamResult.success ["yo"])).conversationHistory[0]?
        = some ⟨Role.user, "hi there"⟩ := by
  have h := user_message_is_trimmed_input ⟨[], "  hi there  ", false, []⟩ ["yo"]
      (by decide)
  exact ⟨by decide, h.1.trans (by decide), h.2.trans (by decide)⟩
